import Mathlib

/-!
# Hand socket axis utilities and mirroring

Shallow embedding of the inline members of `UHandSocketComponent`
(`Public/Grippables/HandSocketComponent.h`): `GetAsEAxis`, `GetMirrorVector`,
`GetFlipVector`, `GetCrossAxis` and `MirrorHandTransform`.

Scalars of the engine's vectors are double-precision values, modelled as the
rationals they denote: sign tests and negation are exact on them, and the sums and
differences of `FVector` are rounded to the nearest double as in IEEE 754 binary64.
Objects passed by reference are cells of a store, so that one object passed for two
reference parameters is expressible.
-/

namespace HandSocket

/-! ## Engine types used by the header -/

/-- Engine enumeration `EAxis::Type`: the spatial axes of the math library, with its
`None` member. -/
inductive EAxis where
  | None
  | X
  | Y
  | Z
  deriving DecidableEq, Repr

/-- Storage of a `TEnumAsByte<EVRAxis::Type>` member: one byte, so that values other
than the three enumerators can be held. -/
abbrev TEnumAsByte := Fin 256

namespace EVRAxis

/-- Enumerator `EVRAxis::X` (first enumerator, value 0). -/
abbrev X : TEnumAsByte := 0

/-- Enumerator `EVRAxis::Y` (value 1). -/
abbrev Y : TEnumAsByte := 1

/-- Enumerator `EVRAxis::Z` (value 2). -/
abbrev Z : TEnumAsByte := 2

end EVRAxis

/-! ## Double-precision arithmetic -/

/-- Nearest integer to a rational, a tie going to the even neighbour. -/
def roundHalfEven (y : ℚ) : ℤ :=
  if y - ⌊y⌋ < 1 / 2 then ⌊y⌋
  else if 1 / 2 < y - ⌊y⌋ then ⌊y⌋ + 1
  else if ⌊y⌋ % 2 = 0 then ⌊y⌋ else ⌊y⌋ + 1

/-- Spacing of the doubles at a non-negative magnitude: `2 ^ (e - 52)` for the binary
exponent `e` of the magnitude (53 significant bits), with `e` not below the subnormal
exponent `-1022`. -/
def ulp (a : ℚ) : ℚ := (2 : ℚ) ^ (max (Int.log 2 a) (-1022) - 52)

/-- A non-negative magnitude rounded to the nearest multiple of the spacing. -/
def roundMagnitude (a : ℚ) : ℚ := roundHalfEven (a / ulp a) * ulp a

/-- IEEE 754 binary64 rounding to nearest, ties to even, of the exact result of an
operation, sign and magnitude handled separately. The exponent is not bounded above:
an exact result of magnitude `2 ^ 1024` or more, which overflows to an infinity in
the engine, is outside the range described by `IsDouble`. -/
def roundDouble (x : ℚ) : ℚ := if x < 0 then -roundMagnitude (-x) else roundMagnitude x

/-- A rational that is a finite double: rounding leaves it as it is and its magnitude
is below `2 ^ 1024`. -/
def IsDouble (x : ℚ) : Prop := roundDouble x = x ∧ |x| < 2 ^ 1024

instance (x : ℚ) : Decidable (IsDouble x) := by
  unfold IsDouble; infer_instance

/-- Engine vector `FVector`, three scalar components. -/
@[ext]
structure FVector where
  X : ℚ
  Y : ℚ
  Z : ℚ
  deriving DecidableEq, Repr

/-- Engine quaternion `FQuat`. -/
@[ext]
structure FQuat where
  X : ℚ
  Y : ℚ
  Z : ℚ
  W : ℚ
  deriving DecidableEq, Repr

/-- Engine transform `FTransform`: rotation, translation and 3D scale. -/
@[ext]
structure FTransform where
  Rotation : FQuat
  Translation : FVector
  Scale3D : FVector
  deriving DecidableEq, Repr

namespace FVector

/-- Modelled from the spec: the engine constant `FVector::ForwardVector` is declared
outside the repository; X maps to forward, the unit vector along X. -/
def ForwardVector : FVector := ⟨1, 0, 0⟩

/-- Modelled from the spec: the engine constant `FVector::RightVector` is declared
outside the repository; Y maps to right, the unit vector along Y. -/
def RightVector : FVector := ⟨0, 1, 0⟩

/-- Modelled from the spec: the engine constant `FVector::UpVector` is declared
outside the repository; Z maps to up, the unit vector along Z. -/
def UpVector : FVector := ⟨0, 0, 1⟩

/-- Engine operation `FVector::operator-`, the component-wise difference of doubles:
each component is the exact difference rounded to the nearest double. -/
def sub (a b : FVector) : FVector :=
  ⟨roundDouble (a.X - b.X), roundDouble (a.Y - b.Y), roundDouble (a.Z - b.Z)⟩

/-- Engine operation `FVector::operator+`, the component-wise sum of doubles: each
component is the exact sum rounded to the nearest double. -/
def add (a b : FVector) : FVector :=
  ⟨roundDouble (a.X + b.X), roundDouble (a.Y + b.Y), roundDouble (a.Z + b.Z)⟩

/-- Mathematical difference of two vectors, without rounding. -/
def exactSub (a b : FVector) : FVector := ⟨a.X - b.X, a.Y - b.Y, a.Z - b.Z⟩

/-- Mathematical sum of two vectors, without rounding. -/
def exactAdd (a b : FVector) : FVector := ⟨a.X + b.X, a.Y + b.Y, a.Z + b.Z⟩

/-- A vector whose three components are finite doubles. -/
def AllDouble (v : FVector) : Prop := IsDouble v.X ∧ IsDouble v.Y ∧ IsDouble v.Z

instance (v : FVector) : Decidable (AllDouble v) := by
  unfold AllDouble; infer_instance

instance : Sub FVector := ⟨sub⟩

instance : Add FVector := ⟨add⟩

/-- Dot product of two vectors. -/
def dot (a b : FVector) : ℚ := a.X * b.X + a.Y * b.Y + a.Z * b.Z

/-- Squared length of a vector, the engine's `FVector::SizeSquared`. -/
def SizeSquared (a : FVector) : ℚ := a.X * a.X + a.Y * a.Y + a.Z * a.Z

/-- Modelled from the spec: the engine's `FVector::GetSignVector` is defined outside
the repository; it keeps only the sign of each component, `+1` for a component that
is `>= 0` and `-1` for a negative one. -/
def GetSignVector (v : FVector) : FVector :=
  ⟨if v.X ≥ 0 then 1 else -1, if v.Y ≥ 0 then 1 else -1, if v.Z ≥ 0 then 1 else -1⟩

/-- Component of a vector along a spatial axis (`0` for `EAxis::None`). -/
def component (v : FVector) : EAxis → ℚ
  | EAxis.None => 0
  | EAxis.X => v.X
  | EAxis.Y => v.Y
  | EAxis.Z => v.Z

/-- The vector with its component along the given axis negated and the other two
kept; `EAxis::None` negates nothing. -/
def reflect (v : FVector) : EAxis → FVector
  | EAxis.None => v
  | EAxis.X => ⟨-v.X, v.Y, v.Z⟩
  | EAxis.Y => ⟨v.X, -v.Y, v.Z⟩
  | EAxis.Z => ⟨v.X, v.Y, -v.Z⟩

end FVector

namespace FTransform

/-- Engine accessor `FTransform::GetTranslation`. -/
def GetTranslation (T : FTransform) : FVector := T.Translation

/-- Engine mutator `FTransform::SetTranslation`, as a functional update. -/
def SetTranslation (T : FTransform) (NewTranslation : FVector) : FTransform :=
  { T with Translation := NewTranslation }

end FTransform

/-! ## The component -/

/-- The members of `UHandSocketComponent` read by the inline axis and mirroring
functions. -/
structure UHandSocketComponent where
  MirrorAxis : TEnumAsByte
  FlipAxis : TEnumAsByte
  bOnlyFlipRotation : Bool
  MirroredScale : FVector
  deriving DecidableEq, Repr

/-- Member `UHandSocketComponent::GetAsEAxis`: a switch over the three enumerators,
with `EAxis::X` returned after the switch for any other stored value. -/
def GetAsEAxis (InAxis : TEnumAsByte) : EAxis :=
  if InAxis = EVRAxis.X then EAxis.X
  else if InAxis = EVRAxis.Y then EAxis.Y
  else if InAxis = EVRAxis.Z then EAxis.Z
  else EAxis.X

/-- Member `UHandSocketComponent::GetMirrorVector`: switch on `MirrorAxis`, with `X`
sharing the `default` label. -/
def GetMirrorVector (self : UHandSocketComponent) : FVector :=
  if self.MirrorAxis = EVRAxis.Y then FVector.RightVector
  else if self.MirrorAxis = EVRAxis.Z then FVector.UpVector
  else FVector.ForwardVector

/-- Member `UHandSocketComponent::GetFlipVector`: switch on `FlipAxis`, with `X`
sharing the `default` label. -/
def GetFlipVector (self : UHandSocketComponent) : FVector :=
  if self.FlipAxis = EVRAxis.Y then FVector.RightVector
  else if self.FlipAxis = EVRAxis.Z then FVector.UpVector
  else FVector.ForwardVector

/-- Member `UHandSocketComponent::GetCrossAxis`: tests the sign vector of
`MirroredScale` on X, then Z, then Y, and otherwise converts `FlipAxis`. -/
def GetCrossAxis (self : UHandSocketComponent) : EAxis :=
  let SignVec := self.MirroredScale.GetSignVector
  if SignVec.X < 0 then EAxis.X
  else if SignVec.Z < 0 then EAxis.Z
  else if SignVec.Y < 0 then EAxis.Y
  else GetAsEAxis self.FlipAxis

/-- Objects of type `FTransform` addressed by reference: the content of each cell. -/
abbrev Store := Nat → FTransform

/-- The store with the object at one reference replaced. -/
def Store.set (mem : Store) (ref : Nat) (T : FTransform) : Store :=
  fun i => if i = ref then T else mem i

/-- Member `UHandSocketComponent::MirrorHandTransform`. The two parameters are non-const
references, given here as references into the store, which may be the same object;
every read and write of the three statements goes through the store and the updated
store is returned. The engine operation `FTransform::Mirror(MirrorAxis, FlipAxis)` is
defined outside the repository and is taken as the parameter `Mirror`. -/
def MirrorHandTransform (Mirror : FTransform → EAxis → EAxis → FTransform)
    (self : UHandSocketComponent) (mem : Store) (ReturnTrans relTrans : Nat) : Store :=
  if self.bOnlyFlipRotation then
    let mem1 := mem.set ReturnTrans ((mem ReturnTrans).SetTranslation
      ((mem ReturnTrans).GetTranslation - (mem relTrans).GetTranslation))
    let mem2 := mem1.set ReturnTrans
      (Mirror (mem1 ReturnTrans) (GetAsEAxis self.MirrorAxis) (GetCrossAxis self))
    mem2.set ReturnTrans ((mem2 ReturnTrans).SetTranslation
      ((mem2 ReturnTrans).GetTranslation + (mem2 relTrans).GetTranslation))
  else
    mem.set ReturnTrans
      (Mirror (mem ReturnTrans) (GetAsEAxis self.MirrorAxis) (GetCrossAxis self))

/-- An axis value that is one of the three enumerators of `EVRAxis::Type`. -/
def IsEnumerator (a : TEnumAsByte) : Prop :=
  a = EVRAxis.X ∨ a = EVRAxis.Y ∨ a = EVRAxis.Z

instance (a : TEnumAsByte) : Decidable (IsEnumerator a) := by
  unfold IsEnumerator; infer_instance

/-! ## The engine mirror operation -/

/-- Contract item for the engine operation `FTransform::Mirror`, which is defined
outside the repository: the translation of the result is the translation of the input
with its component along the mirror axis negated. -/
def MirrorReflectsTranslation (Mirror : FTransform → EAxis → EAxis → FTransform) : Prop :=
  ∀ (T : FTransform) (a c : EAxis), (Mirror T a c).Translation = T.Translation.reflect a

/-- Contract item for the engine operation `FTransform::Mirror`: the rotation and the
scale of the result do not depend on the translation of the input. -/
def MirrorRotationScaleFree (Mirror : FTransform → EAxis → EAxis → FTransform) : Prop :=
  ∀ (T : FTransform) (v : FVector) (a c : EAxis),
    (Mirror (T.SetTranslation v) a c).Rotation = (Mirror T a c).Rotation ∧
      (Mirror (T.SetTranslation v) a c).Scale3D = (Mirror T a c).Scale3D

namespace FQuat

/-- Hamilton product of two quaternions. -/
def mul (p q : FQuat) : FQuat :=
  ⟨p.W * q.X + p.X * q.W + p.Y * q.Z - p.Z * q.Y,
    p.W * q.Y - p.X * q.Z + p.Y * q.W + p.Z * q.X,
    p.W * q.Z + p.X * q.Y - p.Y * q.X + p.Z * q.W,
    p.W * q.W - p.X * q.X - p.Y * q.Y - p.Z * q.Z⟩

/-- Quaternion of the half turn about an axis; the identity rotation for
`EAxis::None`. -/
def halfTurn : EAxis → FQuat
  | EAxis.None => ⟨0, 0, 0, 1⟩
  | EAxis.X => ⟨1, 0, 0, 0⟩
  | EAxis.Y => ⟨0, 1, 0, 0⟩
  | EAxis.Z => ⟨0, 0, 1, 0⟩

/-- Rotation conjugated by the reflection along an axis: the vector part keeps its
component along the axis and has the other two negated. -/
def mirrorConj (q : FQuat) : EAxis → FQuat
  | EAxis.None => q
  | EAxis.X => ⟨q.X, -q.Y, -q.Z, q.W⟩
  | EAxis.Y => ⟨-q.X, q.Y, -q.Z, q.W⟩
  | EAxis.Z => ⟨-q.X, -q.Y, q.Z, q.W⟩

end FQuat

/-- The axis left over by two distinct spatial axes; `EAxis::None` otherwise. -/
def thirdAxis : EAxis → EAxis → EAxis
  | EAxis.X, EAxis.Y => EAxis.Z
  | EAxis.Y, EAxis.X => EAxis.Z
  | EAxis.X, EAxis.Z => EAxis.Y
  | EAxis.Z, EAxis.X => EAxis.Y
  | EAxis.Y, EAxis.Z => EAxis.X
  | EAxis.Z, EAxis.Y => EAxis.X
  | _, _ => EAxis.None

/-- Modelled from the spec: the engine operation `FTransform::Mirror` is defined
outside the repository. The spec describes the mirror operation as reflecting the
translation vector and reflecting and handedness-correcting the rotation along the
pair (mirror axis, cross axis). This instance negates the translation component along
the mirror axis, conjugates the rotation by the reflection along the mirror axis and,
when the flip axis is a different axis, composes it with the half turn about the
remaining axis; the scale is kept. It is the concrete instance at which the contract
items above are checked. -/
def MirrorModel (T : FTransform) (MirrorAxis FlipAxis : EAxis) : FTransform :=
  { Rotation := (FQuat.halfTurn (thirdAxis MirrorAxis FlipAxis)).mul (T.Rotation.mirrorConj MirrorAxis)
    Translation := T.Translation.reflect MirrorAxis
    Scale3D := T.Scale3D }

/-! ## Basic facts -/

theorem sign_component_neg_iff (x : ℚ) : (if x ≥ 0 then (1 : ℚ) else -1) < 0 ↔ x < 0 := by
  split_ifs with h
  · constructor
    · intro h1; norm_num at h1
    · intro h1; exact absurd h (not_le.mpr h1)
  · constructor
    · intro _; exact not_le.mp h
    · intro _; norm_num

theorem GetCrossAxis_eq (self : UHandSocketComponent) :
    GetCrossAxis self =
      if self.MirroredScale.X < 0 then EAxis.X
      else if self.MirroredScale.Z < 0 then EAxis.Z
      else if self.MirroredScale.Y < 0 then EAxis.Y
      else GetAsEAxis self.FlipAxis := by
  simp only [GetCrossAxis, FVector.GetSignVector, sign_component_neg_iff]

theorem GetAsEAxis_cases (a : TEnumAsByte) :
    GetAsEAxis a = EAxis.X ∨ GetAsEAxis a = EAxis.Y ∨ GetAsEAxis a = EAxis.Z := by
  unfold GetAsEAxis
  split_ifs <;> simp

theorem GetMirrorVector_cases (self : UHandSocketComponent) :
    GetMirrorVector self = FVector.ForwardVector ∨ GetMirrorVector self = FVector.RightVector ∨
      GetMirrorVector self = FVector.UpVector := by
  unfold GetMirrorVector
  split_ifs <;> simp

theorem GetFlipVector_cases (self : UHandSocketComponent) :
    GetFlipVector self = FVector.ForwardVector ∨ GetFlipVector self = FVector.RightVector ∨
      GetFlipVector self = FVector.UpVector := by
  unfold GetFlipVector
  split_ifs <;> simp

theorem SizeSquared_of_basis (v : FVector)
    (h : v = FVector.ForwardVector ∨ v = FVector.RightVector ∨ v = FVector.UpVector) :
    FVector.SizeSquared v = 1 := by
  rcases h with h | h | h <;> subst h <;>
    norm_num [FVector.SizeSquared, FVector.ForwardVector, FVector.RightVector, FVector.UpVector]

theorem GetMirrorVector_of_X (self : UHandSocketComponent) (h : self.MirrorAxis = EVRAxis.X) :
    GetMirrorVector self = FVector.ForwardVector := by
  rw [GetMirrorVector, h, if_neg (by decide), if_neg (by decide)]

theorem GetMirrorVector_of_Y (self : UHandSocketComponent) (h : self.MirrorAxis = EVRAxis.Y) :
    GetMirrorVector self = FVector.RightVector := by
  rw [GetMirrorVector, h, if_pos rfl]

theorem GetMirrorVector_of_Z (self : UHandSocketComponent) (h : self.MirrorAxis = EVRAxis.Z) :
    GetMirrorVector self = FVector.UpVector := by
  rw [GetMirrorVector, h, if_neg (by decide), if_pos rfl]

theorem GetFlipVector_of_X (self : UHandSocketComponent) (h : self.FlipAxis = EVRAxis.X) :
    GetFlipVector self = FVector.ForwardVector := by
  rw [GetFlipVector, h, if_neg (by decide), if_neg (by decide)]

theorem GetFlipVector_of_Y (self : UHandSocketComponent) (h : self.FlipAxis = EVRAxis.Y) :
    GetFlipVector self = FVector.RightVector := by
  rw [GetFlipVector, h, if_pos rfl]

theorem GetFlipVector_of_Z (self : UHandSocketComponent) (h : self.FlipAxis = EVRAxis.Z) :
    GetFlipVector self = FVector.UpVector := by
  rw [GetFlipVector, h, if_neg (by decide), if_pos rfl]

theorem basis_dot :
    FVector.dot FVector.ForwardVector FVector.RightVector = 0 ∧
      FVector.dot FVector.ForwardVector FVector.UpVector = 0 ∧
      FVector.dot FVector.RightVector FVector.ForwardVector = 0 ∧
      FVector.dot FVector.RightVector FVector.UpVector = 0 ∧
      FVector.dot FVector.UpVector FVector.ForwardVector = 0 ∧
      FVector.dot FVector.UpVector FVector.RightVector = 0 := by
  simp [FVector.dot, FVector.ForwardVector, FVector.RightVector, FVector.UpVector]

/-! ## Claims on the axis utilities -/

/-- C6: `GetAsEAxis` maps `EVRAxis::X`, `EVRAxis::Y`, `EVRAxis::Z` to the spatial axes
`EAxis::X`, `EAxis::Y`, `EAxis::Z` of the same name, and two enumerators with the same
image are equal (the mapping is injective on the three enumerated values). -/
theorem GetAsEAxis_identity_injective :
    GetAsEAxis EVRAxis.X = EAxis.X ∧ GetAsEAxis EVRAxis.Y = EAxis.Y ∧
      GetAsEAxis EVRAxis.Z = EAxis.Z ∧
      ∀ a b : TEnumAsByte, IsEnumerator a → IsEnumerator b →
        GetAsEAxis a = GetAsEAxis b → a = b := by
  refine ⟨by decide, by decide, by decide, ?_⟩
  intro a b ha hb h
  rcases ha with ha | ha | ha <;> rcases hb with hb | hb | hb <;> subst ha <;> subst hb <;>
    first
      | rfl
      | exact absurd h (by decide)

/-- Instance of C6 at the enumerator `EVRAxis::Y` taken twice: it is one of the three
enumerators, and equal images under `GetAsEAxis` go with equal enumerators. -/
theorem GetAsEAxis_identity_injective_witness :
    IsEnumerator EVRAxis.Y ∧ IsEnumerator EVRAxis.Y ∧
      (GetAsEAxis EVRAxis.Y = GetAsEAxis EVRAxis.Y → EVRAxis.Y = EVRAxis.Y) :=
  ⟨by decide, by decide,
    GetAsEAxis_identity_injective.2.2.2 EVRAxis.Y EVRAxis.Y (by decide) (by decide)⟩

/-- C1: `GetCrossAxis` returns the first negative component of `MirroredScale` in the
order X, Z, Y, whatever `FlipAxis` is: `EAxis::X` when x < 0; `EAxis::Z` when x >= 0
and z < 0; `EAxis::Y` when x >= 0, z >= 0 and y < 0. In particular (-1,1,1) gives X,
(1,1,-1) gives Z, (1,-1,1) gives Y and (1,-1,-1) gives Z. -/
theorem GetCrossAxis_priority (self : UHandSocketComponent) :
    (self.MirroredScale.X < 0 → GetCrossAxis self = EAxis.X) ∧
      (0 ≤ self.MirroredScale.X → self.MirroredScale.Z < 0 → GetCrossAxis self = EAxis.Z) ∧
      (0 ≤ self.MirroredScale.X → 0 ≤ self.MirroredScale.Z → self.MirroredScale.Y < 0 →
        GetCrossAxis self = EAxis.Y) ∧
      GetCrossAxis ⟨self.MirrorAxis, self.FlipAxis, self.bOnlyFlipRotation, ⟨-1, 1, 1⟩⟩ = EAxis.X ∧
      GetCrossAxis ⟨self.MirrorAxis, self.FlipAxis, self.bOnlyFlipRotation, ⟨1, 1, -1⟩⟩ = EAxis.Z ∧
      GetCrossAxis ⟨self.MirrorAxis, self.FlipAxis, self.bOnlyFlipRotation, ⟨1, -1, 1⟩⟩ = EAxis.Y ∧
      GetCrossAxis ⟨self.MirrorAxis, self.FlipAxis, self.bOnlyFlipRotation, ⟨1, -1, -1⟩⟩ = EAxis.Z := by
  refine ⟨?_, ?_, ?_, ?_, ?_, ?_, ?_⟩
  · intro hx
    rw [GetCrossAxis_eq, if_pos hx]
  · intro hx hz
    rw [GetCrossAxis_eq, if_neg (not_lt.mpr hx), if_pos hz]
  · intro hx hz hy
    rw [GetCrossAxis_eq, if_neg (not_lt.mpr hx), if_neg (not_lt.mpr hz), if_pos hy]
  · rw [GetCrossAxis_eq]; norm_num
  · rw [GetCrossAxis_eq]; norm_num
  · rw [GetCrossAxis_eq]; norm_num
  · rw [GetCrossAxis_eq]; norm_num

/-- Instance of C1 at `MirroredScale = (2, -3, -5)` with `FlipAxis = X`: x is not
negative and z is, so the cross axis is Z although y is negative too. -/
theorem GetCrossAxis_priority_witness :
    (0 : ℚ) ≤ 2 ∧ (-5 : ℚ) < 0 ∧
      GetCrossAxis ⟨EVRAxis.X, EVRAxis.X, false, ⟨2, -3, -5⟩⟩ = EAxis.Z :=
  ⟨by norm_num, by norm_num,
    (GetCrossAxis_priority ⟨EVRAxis.X, EVRAxis.X, false, ⟨2, -3, -5⟩⟩).2.1
      (by norm_num) (by norm_num)⟩

/-- C2: when the three components of `MirroredScale` are all non-negative (zero
included), `GetCrossAxis` returns `GetAsEAxis(FlipAxis)`, which for `FlipAxis` one of
X, Y, Z is the spatial axis of the same name; and when some component is negative,
replacing `FlipAxis` by any other value leaves the result of `GetCrossAxis`
unchanged. -/
theorem GetCrossAxis_fallback (self : UHandSocketComponent) :
    (0 ≤ self.MirroredScale.X → 0 ≤ self.MirroredScale.Y → 0 ≤ self.MirroredScale.Z →
        GetCrossAxis self = GetAsEAxis self.FlipAxis ∧
          (self.FlipAxis = EVRAxis.X → GetCrossAxis self = EAxis.X) ∧
          (self.FlipAxis = EVRAxis.Y → GetCrossAxis self = EAxis.Y) ∧
          (self.FlipAxis = EVRAxis.Z → GetCrossAxis self = EAxis.Z)) ∧
      (self.MirroredScale.X < 0 ∨ self.MirroredScale.Y < 0 ∨ self.MirroredScale.Z < 0 →
        ∀ f : TEnumAsByte,
          GetCrossAxis ⟨self.MirrorAxis, f, self.bOnlyFlipRotation, self.MirroredScale⟩ =
            GetCrossAxis self) := by
  constructor
  · intro hx hy hz
    have h : GetCrossAxis self = GetAsEAxis self.FlipAxis := by
      rw [GetCrossAxis_eq, if_neg (not_lt.mpr hx), if_neg (not_lt.mpr hz),
        if_neg (not_lt.mpr hy)]
    refine ⟨h, ?_, ?_, ?_⟩ <;> intro hf <;> rw [h, hf] <;> decide
  · intro hneg f
    rw [GetCrossAxis_eq, GetCrossAxis_eq]
    by_cases hx : self.MirroredScale.X < 0
    · simp [hx]
    · by_cases hz : self.MirroredScale.Z < 0
      · simp [hx, hz]
      · by_cases hy : self.MirroredScale.Y < 0
        · simp [hx, hz, hy]
        · rcases hneg with h | h | h
          · exact absurd h hx
          · exact absurd h hy
          · exact absurd h hz

/-- Instance of C2 at `MirroredScale = (0, 0, 0)` with `FlipAxis = Y`: no component is
negative, so the cross axis is the converted flip axis, `EAxis::Y`. -/
theorem GetCrossAxis_fallback_witness :
    (0 : ℚ) ≤ 0 ∧ GetCrossAxis ⟨EVRAxis.X, EVRAxis.Y, true, ⟨0, 0, 0⟩⟩ = EAxis.Y :=
  ⟨le_refl 0,
    ((GetCrossAxis_fallback ⟨EVRAxis.X, EVRAxis.Y, true, ⟨0, 0, 0⟩⟩).1
      (le_refl 0) (le_refl 0) (le_refl 0)).2.2.1 rfl⟩

/-- C10: the axis resolution never yields "no axis". For every byte value of an axis
member and every `MirroredScale`, `GetAsEAxis` and `GetCrossAxis` return one of
`EAxis::X`, `EAxis::Y`, `EAxis::Z` and never `EAxis::None`; a value that is none of the
three enumerators is mapped to `EAxis::X` by `GetAsEAxis` and to the forward vector by
`GetMirrorVector` and `GetFlipVector`. -/
theorem axis_resolution_total (self : UHandSocketComponent) (a : TEnumAsByte) :
    (GetAsEAxis a = EAxis.X ∨ GetAsEAxis a = EAxis.Y ∨ GetAsEAxis a = EAxis.Z) ∧
      GetAsEAxis a ≠ EAxis.None ∧
      (GetCrossAxis self = EAxis.X ∨ GetCrossAxis self = EAxis.Y ∨
        GetCrossAxis self = EAxis.Z) ∧
      GetCrossAxis self ≠ EAxis.None ∧
      (¬ IsEnumerator a → GetAsEAxis a = EAxis.X) ∧
      (¬ IsEnumerator self.MirrorAxis → GetMirrorVector self = FVector.ForwardVector) ∧
      (¬ IsEnumerator self.FlipAxis → GetFlipVector self = FVector.ForwardVector) := by
  have hA : ∀ b : TEnumAsByte, GetAsEAxis b ≠ EAxis.None := by
    intro b
    rcases GetAsEAxis_cases b with h | h | h <;> rw [h] <;> decide
  have hC : GetCrossAxis self = EAxis.X ∨ GetCrossAxis self = EAxis.Y ∨
      GetCrossAxis self = EAxis.Z := by
    rw [GetCrossAxis_eq]
    split_ifs
    · exact Or.inl rfl
    · exact Or.inr (Or.inr rfl)
    · exact Or.inr (Or.inl rfl)
    · exact GetAsEAxis_cases self.FlipAxis
  refine ⟨GetAsEAxis_cases a, hA a, hC, ?_, ?_, ?_, ?_⟩
  · rcases hC with h | h | h <;> rw [h] <;> decide
  · intro h
    unfold IsEnumerator at h
    push_neg at h
    simp [GetAsEAxis, h.1, h.2.1, h.2.2]
  · intro h
    unfold IsEnumerator at h
    push_neg at h
    simp [GetMirrorVector, h.2.1, h.2.2]
  · intro h
    unfold IsEnumerator at h
    push_neg at h
    simp [GetFlipVector, h.2.1, h.2.2]

/-- Instance of C10 at the stored byte 7, which is none of the enumerators: it is
converted to `EAxis::X`, and a component holding it as mirror axis has the forward
vector as mirror vector. -/
theorem axis_resolution_total_witness :
    ¬ IsEnumerator (7 : TEnumAsByte) ∧ GetAsEAxis 7 = EAxis.X ∧
      GetMirrorVector ⟨7, 7, false, ⟨1, 1, 1⟩⟩ = FVector.ForwardVector :=
  ⟨by decide,
    (axis_resolution_total ⟨7, 7, false, ⟨1, 1, 1⟩⟩ 7).2.2.2.2.1 (by decide),
    (axis_resolution_total ⟨7, 7, false, ⟨1, 1, 1⟩⟩ 7).2.2.2.2.2.1 (by decide)⟩

/-- C7: `GetMirrorVector` and `GetFlipVector` follow the same rule, X to the forward
vector (1,0,0), Y to the right vector (0,1,0), Z to the up vector (0,0,1). For every
stored axis value the result has length exactly 1 (squared length 1, hence square
root 1), two distinct axes among X, Y, Z give orthogonal vectors (dot product 0), and
the two functions agree whenever `MirrorAxis = FlipAxis`. -/
theorem direction_vectors (self other : UHandSocketComponent) :
    (self.MirrorAxis = EVRAxis.X → GetMirrorVector self = ⟨1, 0, 0⟩) ∧
      (self.MirrorAxis = EVRAxis.Y → GetMirrorVector self = ⟨0, 1, 0⟩) ∧
      (self.MirrorAxis = EVRAxis.Z → GetMirrorVector self = ⟨0, 0, 1⟩) ∧
      (self.FlipAxis = EVRAxis.X → GetFlipVector self = ⟨1, 0, 0⟩) ∧
      (self.FlipAxis = EVRAxis.Y → GetFlipVector self = ⟨0, 1, 0⟩) ∧
      (self.FlipAxis = EVRAxis.Z → GetFlipVector self = ⟨0, 0, 1⟩) ∧
      (FVector.SizeSquared (GetMirrorVector self) = 1 ∧
        Real.sqrt ((FVector.SizeSquared (GetMirrorVector self) : ℚ) : ℝ) = 1) ∧
      (FVector.SizeSquared (GetFlipVector self) = 1 ∧
        Real.sqrt ((FVector.SizeSquared (GetFlipVector self) : ℚ) : ℝ) = 1) ∧
      (IsEnumerator self.MirrorAxis → IsEnumerator other.MirrorAxis →
        self.MirrorAxis ≠ other.MirrorAxis →
        FVector.dot (GetMirrorVector self) (GetMirrorVector other) = 0) ∧
      (IsEnumerator self.FlipAxis → IsEnumerator other.FlipAxis →
        self.FlipAxis ≠ other.FlipAxis →
        FVector.dot (GetFlipVector self) (GetFlipVector other) = 0) ∧
      (IsEnumerator self.MirrorAxis → IsEnumerator other.FlipAxis →
        self.MirrorAxis ≠ other.FlipAxis →
        FVector.dot (GetMirrorVector self) (GetFlipVector other) = 0) ∧
      (self.MirrorAxis = self.FlipAxis → GetMirrorVector self = GetFlipVector self) := by
  have hm := SizeSquared_of_basis _ (GetMirrorVector_cases self)
  have hf := SizeSquared_of_basis _ (GetFlipVector_cases self)
  refine ⟨?_, ?_, ?_, ?_, ?_, ?_, ⟨hm, ?_⟩, ⟨hf, ?_⟩, ?_, ?_, ?_, ?_⟩
  · intro h; rw [GetMirrorVector_of_X self h]; rfl
  · intro h; rw [GetMirrorVector_of_Y self h]; rfl
  · intro h; rw [GetMirrorVector_of_Z self h]; rfl
  · intro h; rw [GetFlipVector_of_X self h]; rfl
  · intro h; rw [GetFlipVector_of_Y self h]; rfl
  · intro h; rw [GetFlipVector_of_Z self h]; rfl
  · rw [hm]; simp
  · rw [hf]; simp
  · intro h1 h2 hne
    obtain ⟨b1, b2, b3, b4, b5, b6⟩ := basis_dot
    rcases h1 with h1 | h1 | h1 <;> rcases h2 with h2 | h2 | h2 <;>
      first
        | exact absurd (h1.trans h2.symm) hne
        | simp [GetMirrorVector_of_X, GetMirrorVector_of_Y, GetMirrorVector_of_Z, h1, h2,
            b1, b2, b3, b4, b5, b6]
  · intro h1 h2 hne
    obtain ⟨b1, b2, b3, b4, b5, b6⟩ := basis_dot
    rcases h1 with h1 | h1 | h1 <;> rcases h2 with h2 | h2 | h2 <;>
      first
        | exact absurd (h1.trans h2.symm) hne
        | simp [GetFlipVector_of_X, GetFlipVector_of_Y, GetFlipVector_of_Z, h1, h2,
            b1, b2, b3, b4, b5, b6]
  · intro h1 h2 hne
    obtain ⟨b1, b2, b3, b4, b5, b6⟩ := basis_dot
    rcases h1 with h1 | h1 | h1 <;> rcases h2 with h2 | h2 | h2 <;>
      first
        | exact absurd (h1.trans h2.symm) hne
        | simp [GetMirrorVector_of_X, GetMirrorVector_of_Y, GetMirrorVector_of_Z,
            GetFlipVector_of_X, GetFlipVector_of_Y, GetFlipVector_of_Z, h1, h2,
            b1, b2, b3, b4, b5, b6]
  · intro h
    simp [GetMirrorVector, GetFlipVector, h]

/-- Instance of C7 on one component with `MirrorAxis = Y` and `FlipAxis = Z`: the
mirror vector is the right vector (0,1,0) and is orthogonal to the flip vector. -/
theorem direction_vectors_witness :
    GetMirrorVector ⟨EVRAxis.Y, EVRAxis.Z, false, ⟨1, 1, 1⟩⟩ = ⟨0, 1, 0⟩ ∧
      FVector.dot (GetMirrorVector ⟨EVRAxis.Y, EVRAxis.Z, false, ⟨1, 1, 1⟩⟩)
        (GetFlipVector ⟨EVRAxis.Y, EVRAxis.Z, false, ⟨1, 1, 1⟩⟩) = 0 :=
  ⟨(direction_vectors ⟨EVRAxis.Y, EVRAxis.Z, false, ⟨1, 1, 1⟩⟩
      ⟨EVRAxis.Y, EVRAxis.Z, false, ⟨1, 1, 1⟩⟩).2.1 rfl,
    (direction_vectors ⟨EVRAxis.Y, EVRAxis.Z, false, ⟨1, 1, 1⟩⟩
      ⟨EVRAxis.Y, EVRAxis.Z, false, ⟨1, 1, 1⟩⟩).2.2.2.2.2.2.2.2.2.2.1
      (by decide) (by decide) (by decide)⟩

/-! ## Facts on rounding -/

theorem roundHalfEven_of_near (y : ℚ) (n : ℤ) (h : |y - n| < 1 / 2) : roundHalfEven y = n := by
  rw [abs_lt] at h
  obtain ⟨h1, h2⟩ := h
  unfold roundHalfEven
  by_cases hy : (n : ℚ) ≤ y
  · have hf : ⌊y⌋ = n := by
      rw [Int.floor_eq_iff]
      constructor
      · exact hy
      · linarith
    rw [hf, if_pos (by linarith)]
  · push_neg at hy
    have hf : ⌊y⌋ = n - 1 := by
      rw [Int.floor_eq_iff]
      push_cast
      constructor
      · linarith
      · linarith
    rw [hf]
    push_cast
    rw [if_neg (by linarith), if_pos (by linarith)]
    ring

theorem roundHalfEven_intCast (n : ℤ) : roundHalfEven (n : ℚ) = n :=
  roundHalfEven_of_near _ n (by simp)

theorem ulp_pos (a : ℚ) : 0 < ulp a := by
  unfold ulp; positivity

theorem roundMagnitude_zero : roundMagnitude 0 = 0 := by
  unfold roundMagnitude
  rw [zero_div]
  have := roundHalfEven_intCast 0
  simp only [Int.cast_zero] at this
  rw [this]; simp

theorem roundDouble_zero : roundDouble 0 = 0 := by
  unfold roundDouble
  rw [if_neg (lt_irrefl 0), roundMagnitude_zero]

theorem roundDouble_neg (x : ℚ) : roundDouble (-x) = -roundDouble x := by
  unfold roundDouble
  rcases lt_trichotomy x 0 with h | h | h
  · rw [if_neg (by linarith), if_pos h, neg_neg]
  · subst h; simp [roundMagnitude_zero]
  · rw [if_pos (by linarith), if_neg (by linarith), neg_neg]

theorem IsDouble_neg (x : ℚ) (h : IsDouble x) : IsDouble (-x) := by
  obtain ⟨h1, h2⟩ := h
  exact ⟨by rw [roundDouble_neg, h1], by rwa [abs_neg]⟩

theorem log2_eq (x : ℚ) (e : ℤ) (hlo : (2 : ℚ) ^ e ≤ x) (hhi : x < (2 : ℚ) ^ (e + 1)) :
    Int.log 2 x = e := by
  have hx : 0 < x := lt_of_lt_of_le (by positivity) hlo
  have h1 : e ≤ Int.log 2 x := (Int.zpow_le_iff_le_log (by norm_num) hx).mp (by exact_mod_cast hlo)
  have h2 : Int.log 2 x < e + 1 := (Int.lt_zpow_iff_log_lt (by norm_num) hx).mp (by exact_mod_cast hhi)
  omega

theorem roundDouble_eval (x : ℚ) (e n : ℤ) (hlo : (2 : ℚ) ^ e ≤ x) (hhi : x < (2 : ℚ) ^ (e + 1))
    (hn : |x / (2 : ℚ) ^ (max e (-1022) - 52) - n| < 1 / 2) :
    roundDouble x = n * (2 : ℚ) ^ (max e (-1022) - 52) := by
  have hx : 0 < x := lt_of_lt_of_le (by positivity) hlo
  unfold roundDouble
  rw [if_neg (by linarith)]
  unfold roundMagnitude ulp
  rw [log2_eq x e hlo hhi, roundHalfEven_of_near _ n hn]


theorem roundDouble_natCast (k : ℕ) (h : k < 2 ^ 53) : roundDouble (k : ℚ) = k := by
  rcases Nat.eq_zero_or_pos k with h0 | hpos
  · subst h0; simpa using roundDouble_zero
  · have hk : k ≠ 0 := Nat.pos_iff_ne_zero.mp hpos
    have hle : Nat.log 2 k ≤ 52 := by
      have := Nat.log_lt_of_lt_pow hk h
      omega
    have hlo : (2 : ℚ) ^ ((Nat.log 2 k : ℕ) : ℤ) ≤ (k : ℚ) := by
      rw [zpow_natCast]
      exact_mod_cast Nat.pow_log_le_self 2 hk
    have hhi : (k : ℚ) < (2 : ℚ) ^ (((Nat.log 2 k : ℕ) : ℤ) + 1) := by
      have : (k : ℚ) < (2 : ℚ) ^ (Nat.log 2 k + 1) := by
        exact_mod_cast Nat.lt_pow_succ_log_self (by norm_num : 1 < 2) k
      have h2 : (((Nat.log 2 k : ℕ) : ℤ) + 1) = ((Nat.log 2 k + 1 : ℕ) : ℤ) := by push_cast; ring
      rw [h2, zpow_natCast]
      exact this
    have hmax : max ((Nat.log 2 k : ℕ) : ℤ) (-1022) = (Nat.log 2 k : ℕ) := by
      apply max_eq_left; omega
    have hq : (2 : ℚ) ^ (((Nat.log 2 k : ℕ) : ℤ) - 52) * (2 : ℚ) ^ (52 - Nat.log 2 k) = 1 := by
      rw [← zpow_natCast, ← zpow_add₀ (by norm_num : (2 : ℚ) ≠ 0)]
      have : (((Nat.log 2 k : ℕ) : ℤ) - 52) + ((52 - Nat.log 2 k : ℕ) : ℤ) = 0 := by omega
      rw [this, zpow_zero]
    have hqpos : 0 < (2 : ℚ) ^ (((Nat.log 2 k : ℕ) : ℤ) - 52) := by positivity
    have hdiv : (k : ℚ) / (2 : ℚ) ^ (((Nat.log 2 k : ℕ) : ℤ) - 52) =
        ((k * 2 ^ (52 - Nat.log 2 k) : ℕ) : ℤ) := by
      rw [div_eq_iff (ne_of_gt hqpos)]
      push_cast
      rw [mul_assoc, mul_comm ((2 : ℚ) ^ (52 - Nat.log 2 k)), hq, mul_one]
    have := roundDouble_eval (k : ℚ) (Nat.log 2 k : ℕ) ((k * 2 ^ (52 - Nat.log 2 k) : ℕ) : ℤ)
      hlo hhi (by rw [hmax, hdiv]; simp)
    rw [this, hmax]
    push_cast
    rw [mul_assoc, mul_comm ((2 : ℚ) ^ (52 - Nat.log 2 k)), hq, mul_one]

theorem IsDouble_intCast (k : ℤ) (h : |k| < 2 ^ 53) : IsDouble (k : ℚ) := by
  have hbound : |(k : ℚ)| < 2 ^ 1024 := by
    have h1 : |(k : ℚ)| < 2 ^ 53 := by exact_mod_cast h
    have h2 : (2 : ℚ) ^ 53 ≤ 2 ^ 1024 := by
      apply pow_le_pow_right₀ <;> norm_num
    linarith
  refine ⟨?_, hbound⟩
  rcases le_total 0 k with hk | hk
  · obtain ⟨n, rfl⟩ := Int.eq_ofNat_of_zero_le hk
    have hn : n < 2 ^ 53 := by
      have := h; rw [abs_of_nonneg hk] at this; exact_mod_cast this
    simpa using roundDouble_natCast n hn
  · obtain ⟨n, hn0⟩ := Int.eq_ofNat_of_zero_le (neg_nonneg.mpr hk)
    have hkn : k = -(n : ℤ) := by omega
    subst hkn
    have hn : n < 2 ^ 53 := by
      have := h; rw [abs_neg, abs_of_nonneg (by positivity)] at this; exact_mod_cast this
    push_cast
    rw [roundDouble_neg]
    simpa using roundDouble_natCast n hn

theorem roundDouble_of_IsDouble (x : ℚ) (h : IsDouble x) : roundDouble x = x := h.1

theorem IsDouble_zero : IsDouble 0 := by
  simpa using IsDouble_intCast 0 (by norm_num)

theorem IsDouble_one : IsDouble 1 := by
  simpa using IsDouble_intCast 1 (by norm_num)

theorem AllDouble_ints (a b c : ℤ) (ha : |a| < 2 ^ 53) (hb : |b| < 2 ^ 53) (hc : |c| < 2 ^ 53) :
    FVector.AllDouble ⟨a, b, c⟩ :=
  ⟨IsDouble_intCast a ha, IsDouble_intCast b hb, IsDouble_intCast c hc⟩

/-! ## Facts on vectors, on the store and on the mirror model -/

theorem FVector.add_X (a b : FVector) : (a + b).X = roundDouble (a.X + b.X) := rfl

theorem FVector.add_Y (a b : FVector) : (a + b).Y = roundDouble (a.Y + b.Y) := rfl

theorem FVector.add_Z (a b : FVector) : (a + b).Z = roundDouble (a.Z + b.Z) := rfl

theorem FVector.sub_X (a b : FVector) : (a - b).X = roundDouble (a.X - b.X) := rfl

theorem FVector.sub_Y (a b : FVector) : (a - b).Y = roundDouble (a.Y - b.Y) := rfl

theorem FVector.sub_Z (a b : FVector) : (a - b).Z = roundDouble (a.Z - b.Z) := rfl

theorem FVector.sub_of_exact (a b : FVector) (h : (a.exactSub b).AllDouble) :
    a - b = a.exactSub b := by
  obtain ⟨hx, hy, hz⟩ := h
  ext
  · exact hx.1
  · exact hy.1
  · exact hz.1

theorem FVector.add_of_exact (a b : FVector) (h : (a.exactAdd b).AllDouble) :
    a + b = a.exactAdd b := by
  obtain ⟨hx, hy, hz⟩ := h
  ext
  · exact hx.1
  · exact hy.1
  · exact hz.1

theorem FVector.add_comm_vec (a b : FVector) : a + b = b + a := by
  ext <;> simp only [FVector.add_X, FVector.add_Y, FVector.add_Z, add_comm]

theorem FVector.sub_self_of_any (a b : FVector) (h : a = b) : a - b = ⟨0, 0, 0⟩ := by
  subst h
  ext <;> simp [FVector.sub_X, FVector.sub_Y, FVector.sub_Z, roundDouble_zero]

theorem FVector.zero_add_of_AllDouble (t : FVector) (h : t.AllDouble) :
    (⟨0, 0, 0⟩ : FVector) + t = t := by
  obtain ⟨hx, hy, hz⟩ := h
  ext
  · simp only [FVector.add_X, zero_add]; exact hx.1
  · simp only [FVector.add_Y, zero_add]; exact hy.1
  · simp only [FVector.add_Z, zero_add]; exact hz.1

theorem FVector.reflect_zero (a : EAxis) : (⟨0, 0, 0⟩ : FVector).reflect a = ⟨0, 0, 0⟩ := by
  cases a <;> simp [FVector.reflect]

theorem FVector.component_reflect (v : FVector) (a e : EAxis) :
    (v.reflect a).component e = if e = a then -v.component e else v.component e := by
  cases a <;> cases e <;> simp [FVector.reflect, FVector.component]

theorem FVector.pivot_eq_iff (t r : FVector) (a : EAxis) (ha : a ≠ EAxis.None) :
    r.exactAdd ((t.exactSub r).reflect a) = t ↔ (t.exactSub r).component a = 0 := by
  obtain ⟨tx, ty, tz⟩ := t
  obtain ⟨rx, ry, rz⟩ := r
  cases a with
  | None => exact absurd rfl ha
  | X =>
    simp only [FVector.reflect, FVector.component, FVector.exactSub, FVector.exactAdd,
      FVector.mk.injEq]
    constructor
    · rintro ⟨h, -, -⟩; linarith
    · intro h; refine ⟨by linarith, by ring, by ring⟩
  | Y =>
    simp only [FVector.reflect, FVector.component, FVector.exactSub, FVector.exactAdd,
      FVector.mk.injEq]
    constructor
    · rintro ⟨-, h, -⟩; linarith
    · intro h; refine ⟨by ring, by linarith, by ring⟩
  | Z =>
    simp only [FVector.reflect, FVector.component, FVector.exactSub, FVector.exactAdd,
      FVector.mk.injEq]
    constructor
    · rintro ⟨-, -, h⟩; linarith
    · intro h; refine ⟨by ring, by ring, by linarith⟩

theorem FVector.component_exactSub (t r : FVector) (a : EAxis) :
    (t.exactSub r).component a = t.component a - r.component a := by
  cases a <;> simp [FVector.component, FVector.exactSub]

theorem Store.set_same (mem : Store) (ref : Nat) (T : FTransform) : (mem.set ref T) ref = T := by
  simp [Store.set]

theorem Store.set_other (mem : Store) (ref i : Nat) (T : FTransform) (h : i ≠ ref) :
    (mem.set ref T) i = mem i := by
  simp [Store.set, h]

theorem GetAsEAxis_ne_None (a : TEnumAsByte) : GetAsEAxis a ≠ EAxis.None := by
  rcases GetAsEAxis_cases a with h | h | h <;> rw [h] <;> decide

theorem MirrorModel_reflects : MirrorReflectsTranslation MirrorModel := by
  intro T a c
  rfl

theorem MirrorModel_rotation_scale_free : MirrorRotationScaleFree MirrorModel := by
  intro T v a c
  exact ⟨rfl, rfl⟩

theorem MirrorHandTransform_whole (Mirror : FTransform → EAxis → EAxis → FTransform)
    (self : UHandSocketComponent) (h : self.bOnlyFlipRotation = false)
    (mem : Store) (ReturnTrans relTrans : Nat) :
    MirrorHandTransform Mirror self mem ReturnTrans relTrans =
      mem.set ReturnTrans
        (Mirror (mem ReturnTrans) (GetAsEAxis self.MirrorAxis) (GetCrossAxis self)) := by
  simp [MirrorHandTransform, h]

theorem MirrorHandTransform_flip_separate (Mirror : FTransform → EAxis → EAxis → FTransform)
    (self : UHandSocketComponent) (h : self.bOnlyFlipRotation = true)
    (mem : Store) (ReturnTrans relTrans : Nat) (hsep : ReturnTrans ≠ relTrans) :
    (MirrorHandTransform Mirror self mem ReturnTrans relTrans) ReturnTrans =
      (Mirror ((mem ReturnTrans).SetTranslation
          ((mem ReturnTrans).Translation - (mem relTrans).Translation))
          (GetAsEAxis self.MirrorAxis) (GetCrossAxis self)).SetTranslation
        ((Mirror ((mem ReturnTrans).SetTranslation
          ((mem ReturnTrans).Translation - (mem relTrans).Translation))
          (GetAsEAxis self.MirrorAxis) (GetCrossAxis self)).Translation +
            (mem relTrans).Translation) := by
  have hne : relTrans ≠ ReturnTrans := fun e => hsep e.symm
  simp [MirrorHandTransform, h, Store.set, FTransform.GetTranslation, hne]

theorem MirrorHandTransform_flip_aliased (Mirror : FTransform → EAxis → EAxis → FTransform)
    (self : UHandSocketComponent) (h : self.bOnlyFlipRotation = true)
    (mem : Store) (ReturnTrans : Nat) :
    (MirrorHandTransform Mirror self mem ReturnTrans ReturnTrans) ReturnTrans =
      (Mirror ((mem ReturnTrans).SetTranslation
          ((mem ReturnTrans).Translation - (mem ReturnTrans).Translation))
          (GetAsEAxis self.MirrorAxis) (GetCrossAxis self)).SetTranslation
        ((Mirror ((mem ReturnTrans).SetTranslation
          ((mem ReturnTrans).Translation - (mem ReturnTrans).Translation))
          (GetAsEAxis self.MirrorAxis) (GetCrossAxis self)).Translation +
          (Mirror ((mem ReturnTrans).SetTranslation
          ((mem ReturnTrans).Translation - (mem ReturnTrans).Translation))
          (GetAsEAxis self.MirrorAxis) (GetCrossAxis self)).Translation) := by
  simp [MirrorHandTransform, h, Store.set, FTransform.GetTranslation]

theorem MirrorHandTransform_flip_translation
    (Mirror : FTransform → EAxis → EAxis → FTransform) (hM : MirrorReflectsTranslation Mirror)
    (self : UHandSocketComponent) (h : self.bOnlyFlipRotation = true)
    (mem : Store) (ReturnTrans relTrans : Nat) (hsep : ReturnTrans ≠ relTrans) :
    ((MirrorHandTransform Mirror self mem ReturnTrans relTrans) ReturnTrans).Translation =
      ((mem ReturnTrans).Translation - (mem relTrans).Translation).reflect
        (GetAsEAxis self.MirrorAxis) + (mem relTrans).Translation := by
  rw [MirrorHandTransform_flip_separate Mirror self h mem ReturnTrans relTrans hsep]
  simp only [FTransform.SetTranslation]
  rw [hM _ _ _]

theorem MirrorHandTransform_rotation_scale
    (Mirror : FTransform → EAxis → EAxis → FTransform) (hRS : MirrorRotationScaleFree Mirror)
    (self : UHandSocketComponent) (mem : Store) (ReturnTrans relTrans : Nat) :
    ((MirrorHandTransform Mirror self mem ReturnTrans relTrans) ReturnTrans).Rotation =
        (Mirror (mem ReturnTrans) (GetAsEAxis self.MirrorAxis) (GetCrossAxis self)).Rotation ∧
      ((MirrorHandTransform Mirror self mem ReturnTrans relTrans) ReturnTrans).Scale3D =
        (Mirror (mem ReturnTrans) (GetAsEAxis self.MirrorAxis) (GetCrossAxis self)).Scale3D := by
  cases hmode : self.bOnlyFlipRotation with
  | false =>
    rw [MirrorHandTransform_whole Mirror self hmode, Store.set_same]
    exact ⟨rfl, rfl⟩
  | true =>
    by_cases hsep : ReturnTrans = relTrans
    · subst hsep
      rw [MirrorHandTransform_flip_aliased Mirror self hmode]
      exact ⟨(hRS (mem ReturnTrans) _ _ _).1, (hRS (mem ReturnTrans) _ _ _).2⟩
    · rw [MirrorHandTransform_flip_separate Mirror self hmode mem ReturnTrans relTrans hsep]
      exact ⟨(hRS (mem ReturnTrans) _ _ _).1, (hRS (mem ReturnTrans) _ _ _).2⟩

theorem MirrorHandTransform_exact_translation
    (Mirror : FTransform → EAxis → EAxis → FTransform) (hM : MirrorReflectsTranslation Mirror)
    (self : UHandSocketComponent) (hmode : self.bOnlyFlipRotation = true)
    (mem : Store) (ReturnTrans relTrans : Nat) (hsep : ReturnTrans ≠ relTrans)
    (hsub : ((mem ReturnTrans).Translation.exactSub (mem relTrans).Translation).AllDouble)
    (hadd : ((mem relTrans).Translation.exactAdd
      (((mem ReturnTrans).Translation.exactSub (mem relTrans).Translation).reflect
        (GetAsEAxis self.MirrorAxis))).AllDouble) :
    ((MirrorHandTransform Mirror self mem ReturnTrans relTrans) ReturnTrans).Translation =
      (mem relTrans).Translation.exactAdd
        (((mem ReturnTrans).Translation.exactSub (mem relTrans).Translation).reflect
          (GetAsEAxis self.MirrorAxis)) := by
  rw [MirrorHandTransform_flip_translation Mirror hM self hmode mem ReturnTrans relTrans hsep,
    FVector.sub_of_exact _ _ hsub, FVector.add_comm_vec, FVector.add_of_exact _ _ hadd]

theorem roundDouble_tenth_minus_one :
    roundDouble (3602879701896397 / 36028797018963968 - 1) =
      -(8106479329266893 / 9007199254740992) := by
  have h : (3602879701896397 / 36028797018963968 - 1 : ℚ) =
      -(32425917317067571 / 36028797018963968) := by norm_num
  rw [h, roundDouble_neg,
    roundDouble_eval (32425917317067571 / 36028797018963968) (-1) 8106479329266893
      (by norm_num) (by norm_num) (by norm_num [abs_lt])]
  norm_num

theorem roundDouble_one_minus_nine_tenths :
    roundDouble (-(8106479329266893 / 9007199254740992) + 1) =
      900719925474099 / 9007199254740992 := by
  have h : (-(8106479329266893 / 9007199254740992) + 1 : ℚ) =
      900719925474099 / 9007199254740992 := by norm_num
  rw [h, roundDouble_eval (900719925474099 / 9007199254740992) (-4) 7205759403792792
      (by norm_num) (by norm_num) (by norm_num [abs_lt])]
  norm_num

theorem IsDouble_tenth : IsDouble (3602879701896397 / 36028797018963968) := by
  constructor
  · rw [roundDouble_eval (3602879701896397 / 36028797018963968) (-4) 7205759403792794
      (by norm_num) (by norm_num) (by norm_num [abs_lt])]
    norm_num
  · rw [abs_lt]; constructor <;> norm_num

theorem flip_step_tenth (v : ℚ)
    (h : roundDouble (v - 1) = -(8106479329266893 / 9007199254740992)) :
    ((⟨1, v, 0⟩ : FVector) - ⟨1, 1, 0⟩).reflect EAxis.X + ⟨1, 1, 0⟩ =
      ⟨1, 900719925474099 / 9007199254740992, 0⟩ := by
  have h0 : roundDouble (0 + 0) = 0 := by rw [add_zero]; exact roundDouble_zero
  have h1 : roundDouble (0 + 1) = 1 := by rw [zero_add]; exact IsDouble_one.1
  ext
  · simp only [FVector.reflect, FVector.add_X, FVector.sub_X, sub_self, roundDouble_zero,
      neg_zero, h1]
  · simp only [FVector.reflect, FVector.add_Y, FVector.sub_Y, h,
      roundDouble_one_minus_nine_tenths]
  · simp only [FVector.reflect, FVector.add_Z, FVector.sub_Z, sub_self, roundDouble_zero, h0]

/-! ## Claims on `MirrorHandTransform` -/

/-- C4, counterexample: with `bOnlyFlipRotation = true`, mirror axis X and the mirror
model, a call that passes one object of translation (5, 6, 7) as both `ReturnTrans` and
`relTrans` (so `relTrans` carries the translation of `T`) leaves the translation
(0, 0, 0): line 265 zeroes the translation that line 267 adds back. -/
theorem MirrorHandTransform_same_object_translation :
    ((MirrorHandTransform MirrorModel ⟨EVRAxis.X, EVRAxis.Y, true, ⟨1, 1, 1⟩⟩
        (fun _ => ⟨⟨0, 0, 0, 1⟩, ⟨5, 6, 7⟩, ⟨1, 1, 1⟩⟩) 0 0) 0).Translation = ⟨0, 0, 0⟩ ∧
      ((MirrorHandTransform MirrorModel ⟨EVRAxis.X, EVRAxis.Y, true, ⟨1, 1, 1⟩⟩
        (fun _ => ⟨⟨0, 0, 0, 1⟩, ⟨5, 6, 7⟩, ⟨1, 1, 1⟩⟩) 0 0) 0).Translation ≠ ⟨5, 6, 7⟩ := by
  have h : ((MirrorHandTransform MirrorModel ⟨EVRAxis.X, EVRAxis.Y, true, ⟨1, 1, 1⟩⟩
        (fun _ => ⟨⟨0, 0, 0, 1⟩, ⟨5, 6, 7⟩, ⟨1, 1, 1⟩⟩) 0 0) 0).Translation = ⟨0, 0, 0⟩ := by
    rw [MirrorHandTransform_flip_aliased MirrorModel _ rfl]
    simp only [FTransform.SetTranslation, MirrorModel, FVector.sub_self_of_any _ _ rfl,
      FVector.reflect_zero]
    ext <;> simp [FVector.add_X, FVector.add_Y, FVector.add_Z, roundDouble_zero]
  refine ⟨h, ?_⟩
  rw [h]
  intro h2
  have hx := congrArg FVector.X h2
  norm_num at hx

/-- C4, amended: with `bOnlyFlipRotation = true` and an engine mirror operation that
reflects the translation along the mirror axis, for every transform `T` whose
translation components are doubles, every `MirrorAxis`, `FlipAxis` and `MirroredScale`,
calling `MirrorHandTransform` on `T` with `relTrans` a separate object that carries the
translation of `T` leaves the translation of the result equal to that of `T`. -/
theorem MirrorHandTransform_keeps_own_translation
    (Mirror : FTransform → EAxis → EAxis → FTransform) (hM : MirrorReflectsTranslation Mirror)
    (self : UHandSocketComponent) (hmode : self.bOnlyFlipRotation = true)
    (mem : Store) (ReturnTrans relTrans : Nat) (hsep : ReturnTrans ≠ relTrans)
    (hrel : (mem relTrans).Translation = (mem ReturnTrans).Translation)
    (hT : (mem ReturnTrans).Translation.AllDouble) :
    ((MirrorHandTransform Mirror self mem ReturnTrans relTrans) ReturnTrans).Translation =
      (mem ReturnTrans).Translation := by
  rw [MirrorHandTransform_flip_translation Mirror hM self hmode mem ReturnTrans relTrans hsep,
    hrel, FVector.sub_self_of_any _ _ rfl, FVector.reflect_zero,
    FVector.zero_add_of_AllDouble _ hT]

/-- Instance of C4 as amended, with the mirror model: mirror axis X, translation
(5, 6, 7) on the transform and on a separate `relTrans`; the translation after the
call is (5, 6, 7). -/
theorem MirrorHandTransform_keeps_own_translation_witness :
    MirrorReflectsTranslation MirrorModel ∧
      ((MirrorHandTransform MirrorModel ⟨EVRAxis.X, EVRAxis.Y, true, ⟨1, 1, 1⟩⟩
        (fun i => if i = 0 then ⟨⟨1, 2, 3, 4⟩, ⟨5, 6, 7⟩, ⟨1, 1, 1⟩⟩
          else ⟨⟨0, 0, 0, 1⟩, ⟨5, 6, 7⟩, ⟨2, 2, 2⟩⟩) 0 1) 0).Translation = ⟨5, 6, 7⟩ :=
  ⟨MirrorModel_reflects,
    MirrorHandTransform_keeps_own_translation MirrorModel MirrorModel_reflects
      ⟨EVRAxis.X, EVRAxis.Y, true, ⟨1, 1, 1⟩⟩ rfl
      (fun i => if i = 0 then ⟨⟨1, 2, 3, 4⟩, ⟨5, 6, 7⟩, ⟨1, 1, 1⟩⟩
        else ⟨⟨0, 0, 0, 1⟩, ⟨5, 6, 7⟩, ⟨2, 2, 2⟩⟩) 0 1 (by decide) rfl
      (by
        have h := AllDouble_ints 5 6 7 (by norm_num) (by norm_num) (by norm_num)
        norm_num at h ⊢
        exact h)⟩

/-- C5: with `bOnlyFlipRotation = false`, `MirrorHandTransform` applies the engine
mirror operation to the whole transform: the object `ReturnTrans` becomes
`ReturnTrans.Mirror(GetAsEAxis(MirrorAxis), GetCrossAxis())`, the same for any
`relTrans` reference and any content of the other objects, and, for an engine mirror
operation that reflects the translation along the mirror axis, the translation
component of the result along the mirror axis is the negated one of `ReturnTrans` and
the other components are those of `ReturnTrans`. -/
theorem MirrorHandTransform_direct_mode (Mirror : FTransform → EAxis → EAxis → FTransform)
    (self : UHandSocketComponent) (hmode : self.bOnlyFlipRotation = false)
    (mem : Store) (ReturnTrans relTrans : Nat) :
    (MirrorHandTransform Mirror self mem ReturnTrans relTrans) ReturnTrans =
        Mirror (mem ReturnTrans) (GetAsEAxis self.MirrorAxis) (GetCrossAxis self) ∧
      (∀ (mem2 : Store) (relTrans2 : Nat), mem2 ReturnTrans = mem ReturnTrans →
        (MirrorHandTransform Mirror self mem2 ReturnTrans relTrans2) ReturnTrans =
          (MirrorHandTransform Mirror self mem ReturnTrans relTrans) ReturnTrans) ∧
      (MirrorReflectsTranslation Mirror → ∀ e : EAxis,
        ((MirrorHandTransform Mirror self mem ReturnTrans relTrans)
            ReturnTrans).Translation.component e =
          if e = GetAsEAxis self.MirrorAxis then -(mem ReturnTrans).Translation.component e
          else (mem ReturnTrans).Translation.component e) := by
  have h : ∀ (m : Store) (r : Nat), (MirrorHandTransform Mirror self m ReturnTrans r) ReturnTrans =
      Mirror (m ReturnTrans) (GetAsEAxis self.MirrorAxis) (GetCrossAxis self) := by
    intro m r
    rw [MirrorHandTransform_whole Mirror self hmode, Store.set_same]
  refine ⟨h _ _, ?_, ?_⟩
  · intro mem2 relTrans2 hsame
    rw [h, h, hsame]
  · intro hM e
    rw [h, hM _ _ _, FVector.component_reflect]

/-- Instance of C5 with the mirror model: mirror axis X and translation (5, 6, 7); the
translation component of the result along X is -5. -/
theorem MirrorHandTransform_direct_mode_witness :
    MirrorReflectsTranslation MirrorModel ∧
      ((MirrorHandTransform MirrorModel ⟨EVRAxis.X, EVRAxis.Y, false, ⟨1, 1, 1⟩⟩
        (fun i => if i = 0 then ⟨⟨1, 2, 3, 4⟩, ⟨5, 6, 7⟩, ⟨1, 1, 1⟩⟩
          else ⟨⟨0, 0, 0, 1⟩, ⟨1, 2, 3⟩, ⟨1, 1, 1⟩⟩) 0 1) 0).Translation.component EAxis.X =
        -5 :=
  ⟨MirrorModel_reflects,
    ((MirrorHandTransform_direct_mode MirrorModel ⟨EVRAxis.X, EVRAxis.Y, false, ⟨1, 1, 1⟩⟩ rfl
      (fun i => if i = 0 then ⟨⟨1, 2, 3, 4⟩, ⟨5, 6, 7⟩, ⟨1, 1, 1⟩⟩
        else ⟨⟨0, 0, 0, 1⟩, ⟨1, 2, 3⟩, ⟨1, 1, 1⟩⟩) 0 1).2.2 MirrorModel_reflects EAxis.X).trans
      (by
        have h : GetAsEAxis EVRAxis.X = EAxis.X := by decide
        simp only [h, FVector.component, if_true])⟩

/-- C8, counterexample: with `bOnlyFlipRotation = true`, mirror axis X and the mirror
model, `ReturnTrans` of translation `t = (1, 0.1, 0)` and a separate `relTrans` of
translation `r = (1, 1, 0)`, all components doubles: `t - r` has zero component along
the mirror axis, yet the translation after the call is (1, 0.09999999999999998, 0),
which is neither `t` nor `r + m(t - r)`. -/
theorem MirrorHandTransform_pivot_rounding :
    FVector.AllDouble ⟨1, 3602879701896397 / 36028797018963968, 0⟩ ∧
      FVector.AllDouble ⟨1, 1, 0⟩ ∧
      ((⟨1, 3602879701896397 / 36028797018963968, 0⟩ : FVector).exactSub ⟨1, 1, 0⟩).component
        (GetAsEAxis EVRAxis.X) = 0 ∧
      ((MirrorHandTransform MirrorModel ⟨EVRAxis.X, EVRAxis.X, true, ⟨1, 1, 1⟩⟩
        (fun i => if i = 0
          then ⟨⟨0, 0, 0, 1⟩, ⟨1, 3602879701896397 / 36028797018963968, 0⟩, ⟨1, 1, 1⟩⟩
          else ⟨⟨0, 0, 0, 1⟩, ⟨1, 1, 0⟩, ⟨1, 1, 1⟩⟩) 0 1) 0).Translation =
        ⟨1, 900719925474099 / 9007199254740992, 0⟩ ∧
      ((MirrorHandTransform MirrorModel ⟨EVRAxis.X, EVRAxis.X, true, ⟨1, 1, 1⟩⟩
        (fun i => if i = 0
          then ⟨⟨0, 0, 0, 1⟩, ⟨1, 3602879701896397 / 36028797018963968, 0⟩, ⟨1, 1, 1⟩⟩
          else ⟨⟨0, 0, 0, 1⟩, ⟨1, 1, 0⟩, ⟨1, 1, 1⟩⟩) 0 1) 0).Translation ≠
        ⟨1, 3602879701896397 / 36028797018963968, 0⟩ := by
  have hX : GetAsEAxis EVRAxis.X = EAxis.X := by decide
  have hT : ((MirrorHandTransform MirrorModel ⟨EVRAxis.X, EVRAxis.X, true, ⟨1, 1, 1⟩⟩
        (fun i => if i = 0
          then ⟨⟨0, 0, 0, 1⟩, ⟨1, 3602879701896397 / 36028797018963968, 0⟩, ⟨1, 1, 1⟩⟩
          else ⟨⟨0, 0, 0, 1⟩, ⟨1, 1, 0⟩, ⟨1, 1, 1⟩⟩) 0 1) 0).Translation =
        ⟨1, 900719925474099 / 9007199254740992, 0⟩ := by
    rw [MirrorHandTransform_flip_translation MirrorModel MirrorModel_reflects _ rfl _ 0 1
        (by decide)]
    simp only [hX, if_true, if_neg (by decide : ¬ (1 : Nat) = 0)]
    exact flip_step_tenth _ roundDouble_tenth_minus_one
  refine ⟨⟨IsDouble_one, IsDouble_tenth, IsDouble_zero⟩, ⟨IsDouble_one, IsDouble_one, IsDouble_zero⟩,
    ?_, hT, ?_⟩
  · rw [hX]; simp [FVector.exactSub, FVector.component]
  · rw [hT]
    intro h
    have hy := congrArg FVector.Y h
    norm_num at hy

/-- C8, amended: in only-flip-rotation mode the mirror pivots about the translation of
`relTrans`. With `bOnlyFlipRotation = true`, an engine mirror operation that reflects
the translation along the mirror axis, `ReturnTrans` of translation `t` and a separate
object `relTrans` of translation `r` such that the difference `t - r` and the sum
`r + m(t - r)` are exact doubles (no rounding in lines 265 and 267), the result has
translation `r + m(t - r)`, where `m` negates the component along the mirror axis; it
equals `t` if and only if `t - r` has zero component along the mirror axis; so when
`t` and `r` differ along the mirror axis the translation changes, and such inputs
exist. -/
theorem MirrorHandTransform_pivot (Mirror : FTransform → EAxis → EAxis → FTransform)
    (hM : MirrorReflectsTranslation Mirror) (self : UHandSocketComponent)
    (hmode : self.bOnlyFlipRotation = true) (mem : Store) (ReturnTrans relTrans : Nat)
    (hsep : ReturnTrans ≠ relTrans)
    (hsub : ((mem ReturnTrans).Translation.exactSub (mem relTrans).Translation).AllDouble)
    (hadd : ((mem relTrans).Translation.exactAdd
      (((mem ReturnTrans).Translation.exactSub (mem relTrans).Translation).reflect
        (GetAsEAxis self.MirrorAxis))).AllDouble) :
    ((MirrorHandTransform Mirror self mem ReturnTrans relTrans) ReturnTrans).Translation =
        (mem relTrans).Translation.exactAdd
          (((mem ReturnTrans).Translation.exactSub (mem relTrans).Translation).reflect
            (GetAsEAxis self.MirrorAxis)) ∧
      (((MirrorHandTransform Mirror self mem ReturnTrans relTrans) ReturnTrans).Translation =
          (mem ReturnTrans).Translation ↔
        ((mem ReturnTrans).Translation.exactSub (mem relTrans).Translation).component
          (GetAsEAxis self.MirrorAxis) = 0) ∧
      ((mem ReturnTrans).Translation.component (GetAsEAxis self.MirrorAxis) ≠
          (mem relTrans).Translation.component (GetAsEAxis self.MirrorAxis) →
        ((MirrorHandTransform Mirror self mem ReturnTrans relTrans) ReturnTrans).Translation ≠
          (mem ReturnTrans).Translation) ∧
      ∃ (mem2 : Store) (T r : Nat), T ≠ r ∧
        ((mem2 T).Translation.exactSub (mem2 r).Translation).AllDouble ∧
        ((mem2 r).Translation.exactAdd
          (((mem2 T).Translation.exactSub (mem2 r).Translation).reflect
            (GetAsEAxis self.MirrorAxis))).AllDouble ∧
        (mem2 T).Translation.component (GetAsEAxis self.MirrorAxis) ≠
          (mem2 r).Translation.component (GetAsEAxis self.MirrorAxis) ∧
        ((MirrorHandTransform Mirror self mem2 T r) T).Translation ≠ (mem2 T).Translation := by
  have hiff : ∀ (m : Store) (T r : Nat), T ≠ r →
      ((m T).Translation.exactSub (m r).Translation).AllDouble →
      ((m r).Translation.exactAdd (((m T).Translation.exactSub (m r).Translation).reflect
        (GetAsEAxis self.MirrorAxis))).AllDouble →
      (((MirrorHandTransform Mirror self m T r) T).Translation = (m T).Translation ↔
        ((m T).Translation.exactSub (m r).Translation).component
          (GetAsEAxis self.MirrorAxis) = 0) := by
    intro m T r h1 h2 h3
    rw [MirrorHandTransform_exact_translation Mirror hM self hmode m T r h1 h2 h3]
    exact FVector.pivot_eq_iff _ _ _ (GetAsEAxis_ne_None self.MirrorAxis)
  have hne : ∀ (m : Store) (T r : Nat), T ≠ r →
      ((m T).Translation.exactSub (m r).Translation).AllDouble →
      ((m r).Translation.exactAdd (((m T).Translation.exactSub (m r).Translation).reflect
        (GetAsEAxis self.MirrorAxis))).AllDouble →
      (m T).Translation.component (GetAsEAxis self.MirrorAxis) ≠
          (m r).Translation.component (GetAsEAxis self.MirrorAxis) →
        ((MirrorHandTransform Mirror self m T r) T).Translation ≠ (m T).Translation := by
    intro m T r h1 h2 h3 hd heq
    have h0 := (hiff m T r h1 h2 h3).mp heq
    rw [FVector.component_exactSub] at h0
    exact hd (sub_eq_zero.mp h0)
  have hone : IsDouble 1 := IsDouble_one
  have hneg : IsDouble (-1) := IsDouble_neg 1 IsDouble_one
  have hzero : IsDouble 0 := IsDouble_zero
  have hs2 : ((⟨1, 1, 1⟩ : FVector).exactSub ⟨0, 0, 0⟩).AllDouble := by
    simp only [FVector.exactSub, FVector.AllDouble, sub_zero]
    exact ⟨hone, hone, hone⟩
  have ha2 : ((⟨0, 0, 0⟩ : FVector).exactAdd
      (((⟨1, 1, 1⟩ : FVector).exactSub ⟨0, 0, 0⟩).reflect
        (GetAsEAxis self.MirrorAxis))).AllDouble := by
    rcases GetAsEAxis_cases self.MirrorAxis with h | h | h <;> rw [h] <;>
      simp only [FVector.exactSub, FVector.exactAdd, FVector.reflect, FVector.AllDouble,
        sub_zero, zero_add]
    · exact ⟨hneg, hone, hone⟩
    · exact ⟨hone, hneg, hone⟩
    · exact ⟨hone, hone, hneg⟩
  have hd2 : (⟨1, 1, 1⟩ : FVector).component (GetAsEAxis self.MirrorAxis) ≠
      (⟨0, 0, 0⟩ : FVector).component (GetAsEAxis self.MirrorAxis) := by
    rcases GetAsEAxis_cases self.MirrorAxis with h | h | h <;> rw [h] <;>
      simp [FVector.component]
  refine ⟨MirrorHandTransform_exact_translation Mirror hM self hmode mem ReturnTrans relTrans
      hsep hsub hadd, hiff mem ReturnTrans relTrans hsep hsub hadd,
    hne mem ReturnTrans relTrans hsep hsub hadd,
    fun i => if i = 0 then ⟨⟨0, 0, 0, 1⟩, ⟨1, 1, 1⟩, ⟨1, 1, 1⟩⟩
      else ⟨⟨0, 0, 0, 1⟩, ⟨0, 0, 0⟩, ⟨1, 1, 1⟩⟩, 0, 1, by decide, hs2, ha2, hd2, ?_⟩
  exact hne _ 0 1 (by decide) hs2 ha2 hd2

/-- Instance of C8 as amended, with the mirror model: mirror axis Y, `t = (5, 6, 7)`
and `r = (1, 2, 3)` in separate objects; the resulting translation is
`r + m(t - r) = (5, -2, 7)`. -/
theorem MirrorHandTransform_pivot_witness :
    MirrorReflectsTranslation MirrorModel ∧
      ((MirrorHandTransform MirrorModel ⟨EVRAxis.Y, EVRAxis.Y, true, ⟨1, 1, 1⟩⟩
        (fun i => if i = 0 then ⟨⟨1, 2, 3, 4⟩, ⟨5, 6, 7⟩, ⟨1, 1, 1⟩⟩
          else ⟨⟨0, 0, 0, 1⟩, ⟨1, 2, 3⟩, ⟨1, 1, 1⟩⟩) 0 1) 0).Translation = ⟨5, -2, 7⟩ :=
  ⟨MirrorModel_reflects,
    (MirrorHandTransform_pivot MirrorModel MirrorModel_reflects
      ⟨EVRAxis.Y, EVRAxis.Y, true, ⟨1, 1, 1⟩⟩ rfl
      (fun i => if i = 0 then ⟨⟨1, 2, 3, 4⟩, ⟨5, 6, 7⟩, ⟨1, 1, 1⟩⟩
        else ⟨⟨0, 0, 0, 1⟩, ⟨1, 2, 3⟩, ⟨1, 1, 1⟩⟩) 0 1 (by decide)
      (by
        have h := AllDouble_ints 4 4 4 (by norm_num) (by norm_num) (by norm_num)
        norm_num [FVector.exactSub] at h ⊢
        exact h)
      (by
        have hY : GetAsEAxis EVRAxis.Y = EAxis.Y := by decide
        have h := AllDouble_ints 5 (-2) 7 (by norm_num) (by norm_num) (by norm_num)
        norm_num [FVector.exactSub, FVector.exactAdd, FVector.reflect, hY] at h ⊢
        exact h)).1.trans
      (by
        have hY : GetAsEAxis EVRAxis.Y = EAxis.Y := by decide
        norm_num [FVector.exactSub, FVector.exactAdd, FVector.reflect, hY])⟩

/-- C9: the two mirroring modes differ only in translation. For an engine mirror
operation whose rotation and scale outputs do not depend on the input translation, and
for every `ReturnTrans`, `relTrans` (a separate object or the same one), `MirrorAxis`,
`FlipAxis` and `MirroredScale`, the rotation and the scale produced by
`MirrorHandTransform` with `bOnlyFlipRotation = true` equal those produced with
`bOnlyFlipRotation = false`, and both equal those of
`ReturnTrans.Mirror(GetAsEAxis(MirrorAxis), GetCrossAxis())`. -/
theorem MirrorHandTransform_modes_agree (Mirror : FTransform → EAxis → EAxis → FTransform)
    (hRS : MirrorRotationScaleFree Mirror) (self : UHandSocketComponent)
    (mem : Store) (ReturnTrans relTrans : Nat) :
    ((MirrorHandTransform Mirror ⟨self.MirrorAxis, self.FlipAxis, true, self.MirroredScale⟩
          mem ReturnTrans relTrans) ReturnTrans).Rotation =
        ((MirrorHandTransform Mirror ⟨self.MirrorAxis, self.FlipAxis, false, self.MirroredScale⟩
          mem ReturnTrans relTrans) ReturnTrans).Rotation ∧
      ((MirrorHandTransform Mirror ⟨self.MirrorAxis, self.FlipAxis, true, self.MirroredScale⟩
          mem ReturnTrans relTrans) ReturnTrans).Scale3D =
        ((MirrorHandTransform Mirror ⟨self.MirrorAxis, self.FlipAxis, false, self.MirroredScale⟩
          mem ReturnTrans relTrans) ReturnTrans).Scale3D ∧
      ((MirrorHandTransform Mirror ⟨self.MirrorAxis, self.FlipAxis, false, self.MirroredScale⟩
          mem ReturnTrans relTrans) ReturnTrans).Rotation =
        (Mirror (mem ReturnTrans) (GetAsEAxis self.MirrorAxis) (GetCrossAxis self)).Rotation ∧
      ((MirrorHandTransform Mirror ⟨self.MirrorAxis, self.FlipAxis, false, self.MirroredScale⟩
          mem ReturnTrans relTrans) ReturnTrans).Scale3D =
        (Mirror (mem ReturnTrans) (GetAsEAxis self.MirrorAxis) (GetCrossAxis self)).Scale3D := by
  have hon := MirrorHandTransform_rotation_scale Mirror hRS
    ⟨self.MirrorAxis, self.FlipAxis, true, self.MirroredScale⟩ mem ReturnTrans relTrans
  have hoff := MirrorHandTransform_rotation_scale Mirror hRS
    ⟨self.MirrorAxis, self.FlipAxis, false, self.MirroredScale⟩ mem ReturnTrans relTrans
  have hc : ∀ b : Bool,
      GetCrossAxis ⟨self.MirrorAxis, self.FlipAxis, b, self.MirroredScale⟩ = GetCrossAxis self :=
    fun _ => rfl
  rw [hc] at hon hoff
  exact ⟨hon.1.trans hoff.1.symm, hon.2.trans hoff.2.symm, hoff.1, hoff.2⟩

/-- Instance of C9 with the mirror model: mirror axis X, flip axis Y, the rotation
after the call is the same in the two modes. -/
theorem MirrorHandTransform_modes_agree_witness :
    MirrorRotationScaleFree MirrorModel ∧
      ((MirrorHandTransform MirrorModel ⟨EVRAxis.X, EVRAxis.Y, true, ⟨1, 1, 1⟩⟩
          (fun i => if i = 0 then ⟨⟨1, 2, 3, 4⟩, ⟨5, 6, 7⟩, ⟨1, 1, 1⟩⟩
            else ⟨⟨0, 0, 0, 1⟩, ⟨1, 2, 3⟩, ⟨1, 1, 1⟩⟩) 0 1) 0).Rotation =
        ((MirrorHandTransform MirrorModel ⟨EVRAxis.X, EVRAxis.Y, false, ⟨1, 1, 1⟩⟩
          (fun i => if i = 0 then ⟨⟨1, 2, 3, 4⟩, ⟨5, 6, 7⟩, ⟨1, 1, 1⟩⟩
            else ⟨⟨0, 0, 0, 1⟩, ⟨1, 2, 3⟩, ⟨1, 1, 1⟩⟩) 0 1) 0).Rotation :=
  ⟨MirrorModel_rotation_scale_free,
    (MirrorHandTransform_modes_agree MirrorModel MirrorModel_rotation_scale_free
      ⟨EVRAxis.X, EVRAxis.Y, true, ⟨1, 1, 1⟩⟩
      (fun i => if i = 0 then ⟨⟨1, 2, 3, 4⟩, ⟨5, 6, 7⟩, ⟨1, 1, 1⟩⟩
        else ⟨⟨0, 0, 0, 1⟩, ⟨1, 2, 3⟩, ⟨1, 1, 1⟩⟩) 0 1).1⟩


end HandSocket
